import Mathlib

/-!
Verification development for the MU-TH-UR 6000 offline telemetry pipeline
(files `telemetry-worker.js` — the analysis engine — and the app controller).

The JavaScript source is shallowly embedded: SQLite storage values become an
inductive `SVal` (numeric values are modelled as integers, matching SQLite
INTEGER storage), a database file becomes a `Database` (a list of tables, each
a list of named columns and rows), and each worker/controller function becomes
a Lean function of the same name.  JavaScript `Date` objects are modelled by
their epoch-millisecond time value, with the ECMAScript validity range
(|t| ≤ 8.64e15) made explicit; an out-of-range time value is an Invalid Date.
The host's generic string-to-date parser (`new Date(string)`) is not repository
code, so it is passed in as an explicit `parse` parameter.

SQL semantics used by the worker's fixed queries are embedded directly:
`GROUP BY c ORDER BY COUNT(*) DESC LIMIT n` yields the distinct values of `c`
with their counts, ordered by count descending with ties broken by the SQLite
value order descending (NULL < numbers < text), as the SQLite temp-B-tree
sorter produces for this query shape.
-/

namespace Muthur

/-- Decidable equality for `Except`, used to evaluate engine results on
concrete inputs. -/
instance {ε α : Type} [DecidableEq ε] [DecidableEq α] :
    DecidableEq (Except ε α) := fun x y =>
  match x, y with
  | .ok a, .ok b =>
      if h : a = b then .isTrue (by rw [h])
      else .isFalse (by intro hh; injection hh; exact h (by assumption))
  | .error a, .error b =>
      if h : a = b then .isTrue (by rw [h])
      else .isFalse (by intro hh; injection hh; exact h (by assumption))
  | .ok _, .error _ => .isFalse (by intro hh; exact Except.noConfusion hh)
  | .error _, .ok _ => .isFalse (by intro hh; exact Except.noConfusion hh)

/-! ## String utilities (JS `String.prototype.includes` and `/.../i` tests) -/

/-- `subAt pat s` is true when `pat` occurs at the very start of `s`. -/
def subAt : List Char → List Char → Bool
  | [], _ => true
  | _ :: _, [] => false
  | p :: ps, c :: cs => p == c && subAt ps cs

/-- `hasSub pat s` is true when `pat` occurs contiguously somewhere in `s`
(JS `s.includes(pat)`). -/
def hasSub (pat : List Char) : List Char → Bool
  | [] => pat.isEmpty
  | c :: cs => subAt pat (c :: cs) || hasSub pat cs

/-- Case-sensitive substring test on strings: `s.includes(pat)` in JS. -/
def strHas (s pat : String) : Bool := hasSub pat.data s.data

/-- ASCII lower-casing of one character (the case folding the `/.../i`
regexes and `LIKE` need here: all patterns are ASCII). -/
def lcChar (c : Char) : Char :=
  if 65 ≤ c.toNat && c.toNat ≤ 90 then Char.ofNat (c.toNat + 32) else c

/-- ASCII lower-casing of a character list. -/
def lowerChars (l : List Char) : List Char := l.map lcChar

/-- Case-insensitive substring containment: how a `/word/i.test(s)` regex with
a plain alternative behaves. -/
def containsCI (s pat : String) : Bool :=
  hasSub (lowerChars pat.data) (lowerChars s.data)

/-- Strict lexicographic order on character lists by code point — the string
order of both SQLite's BINARY collation and the default JS `Array.sort`
comparator (identical on the ASCII strings involved). -/
def listLexLt : List Char → List Char → Bool
  | [], [] => false
  | [], _ :: _ => true
  | _ :: _, [] => false
  | a :: as, b :: bs =>
      decide (a.toNat < b.toNat) || (a.toNat == b.toNat && listLexLt as bs)

/-- Strict string order by code point. -/
def strLt (a b : String) : Bool := listLexLt a.data b.data

/-- Non-strict string order by code point. -/
def strLe (a b : String) : Bool := strLt a b || a == b

/-! ## SQLite storage values -/

/-- A SQLite storage value as surfaced to JavaScript by sql.js.  Numeric
values are modelled as integers (SQLite INTEGER storage); BLOBs do not occur
in the claims and are omitted. -/
inductive SVal where
  | vnull
  | vnum (n : Int)
  | vstr (s : String)
deriving DecidableEq, Repr

/-- SQLite cross-type sort order rank: NULL < numeric < text. -/
def svalRank : SVal → Nat
  | .vnull => 0
  | .vnum _ => 1
  | .vstr _ => 2

/-- Strict SQLite value order (NULLs first, numbers by value, text by binary
collation). -/
def svalLt (a b : SVal) : Bool :=
  match a, b with
  | .vnum m, .vnum n => decide (m < n)
  | .vstr s, .vstr t => strLt s t
  | _, _ => decide (svalRank a < svalRank b)

/-- Non-strict SQLite value order. -/
def svalLe (a b : SVal) : Bool := svalLt a b || a == b

/-- JS `String(k)` for the `String(k ?? dflt)` labelling in the group
queries: numbers print in decimal, strings are themselves, NULL takes the
default label. -/
def svalToLabel (dflt : String) : SVal → String
  | .vnull => dflt
  | .vnum n => toString n
  | .vstr s => s

/-! ## Database model -/

/-- One user table of the uploaded SQLite file: its name, its declared column
names in order, and its rows (row-major, in rowid order). -/
structure Table where
  name : String
  cols : List String
  rows : List (List SVal)
deriving DecidableEq, Repr

/-- A parsed SQLite database: its tables in `sqlite_master` order. -/
structure Database where
  tables : List Table
deriving DecidableEq, Repr

/-- The values of column `c` of table `t`, in row order.  A row missing the
column position reads as NULL. -/
def Table.colVals (t : Table) (c : String) : List SVal :=
  match t.cols.indexOf? c with
  | none => t.rows.map fun _ => .vnull
  | some i => t.rows.map fun r => r.getD i .vnull

/-- The `name NOT LIKE 'sqlite_%'` filter of `listTables`: LIKE is
case-insensitive and `_` matches any single character, so a name is internal
when it has ≥ 7 characters and starts with `sqlite` case-insensitively. -/
def isSqliteInternal (n : String) : Bool :=
  subAt "sqlite".data (lowerChars n.data) && decide (7 ≤ n.length)

/-! ## Generic sorting helper (insertion sort, stable) -/

/-- Insert `x` into `l` before the first element `y` with `le x y`. -/
def insertBy (le : α → α → Bool) (x : α) : List α → List α
  | [] => [x]
  | y :: ys => if le x y then x :: y :: ys else y :: insertBy le x ys

/-- Stable insertion sort by a boolean relation. -/
def sortBy (le : α → α → Bool) (l : List α) : List α := l.foldr (insertBy le) []

/-! ## JS dates -/

/-- Largest representable ECMAScript time value, in milliseconds
(±100,000,000 days around the epoch). -/
def jsMaxTime : Int := 8640000000000000

/-- A JS `Date` object: either a valid epoch-millisecond instant or the
Invalid Date (time value NaN). -/
inductive JSDate where
  | invalid
  | time (t : Int)
deriving DecidableEq, Repr

/-- `new Date(n)` for a number `n`: valid with time value `n` when in range,
Invalid Date otherwise. -/
def jsDateOfNum (n : Int) : JSDate :=
  if n.natAbs ≤ jsMaxTime.toNat then .time n else .invalid

/-- One hour in milliseconds. -/
def hourMs : Int := 3600000

/-- `date.setMinutes(0, 0, 0)` on a valid date in a whole-hour timezone
(the worker runs in UTC here): zero the minutes, seconds and milliseconds,
i.e. floor the time value to the hour. -/
def truncHour (t : Int) : Int := t - t.emod hourMs

/-! ### `Date.prototype.toISOString`
Rendered exactly as ECMAScript does: proleptic Gregorian UTC, years 0–9999 as
four digits, years outside that range in the expanded `±YYYYYY` form. -/

/-- Days-from-epoch and ms-of-day split of a time value, flooring. -/
def splitDay (t : Int) : Int × Nat :=
  ((t - t.emod 86400000) / 86400000, (t.emod 86400000).toNat)

/-- Civil date (year, month, day) of a day count since 1970-01-01, proleptic
Gregorian (days-from-civil inverse, era-based computation). -/
def civilFromDays (z : Int) : Int × Nat × Nat :=
  let z' := z + 719468
  let era : Int := (z' - z'.emod 146097) / 146097
  let doe : Nat := (z'.emod 146097).toNat
  let yoe : Nat := (doe - doe / 1460 + doe / 36524 - doe / 146096) / 365
  let doy : Nat := doe - (365 * yoe + yoe / 4 - yoe / 100)
  let mp : Nat := (5 * doy + 2) / 153
  let d : Nat := doy - (153 * mp + 2) / 5 + 1
  let m : Nat := if mp < 10 then mp + 3 else mp - 9
  let y : Int := (yoe : Int) + era * 400 + (if m ≤ 2 then 1 else 0)
  (y, m, d)

/-- Left-pad the decimal rendering of `n` with zeros to width `w`. -/
def padNum (w : Nat) (n : Nat) : String :=
  let s := toString n
  ⟨List.replicate (w - s.length) '0'⟩ ++ s

/-- The year field of `toISOString`: `YYYY` for 0–9999, else `±YYYYYY`. -/
def isoYear (y : Int) : String :=
  if 0 ≤ y && y ≤ 9999 then padNum 4 y.toNat
  else if y < 0 then "-" ++ padNum 6 (-y).toNat
  else "+" ++ padNum 6 y.toNat

/-- `toISOString` of a valid time value. -/
def isoUTC (t : Int) : String :=
  let (day, ms) := splitDay t
  let (y, mo, d) := civilFromDays day
  isoYear y ++ "-" ++ padNum 2 mo ++ "-" ++ padNum 2 d ++ "T" ++
    padNum 2 (ms / 3600000) ++ ":" ++ padNum 2 (ms / 60000 % 60) ++ ":" ++
    padNum 2 (ms / 1000 % 60) ++ "." ++ padNum 3 (ms % 1000) ++ "Z"

/-! ## Worker: error codes and `normalizeDate` -/

/-- The reason codes the analysis engine can signal, plus the two host-level
failures that escape it (`WORKER_BUSY` from the message handler, and the
`RangeError` a `toISOString` call on an Invalid Date raises). -/
inductive WorkerErr where
  | workerNotReady
  | emptyFile
  | fileExceedsCapacity
  | noTablesFound
  | invalidSchema
  | workerBusy
  | rangeError
deriving DecidableEq, Repr

/-- `err.message` as posted back to the controller. -/
def WorkerErr.message : WorkerErr → String
  | .workerNotReady => "WORKER_NOT_READY"
  | .emptyFile => "EMPTY_FILE"
  | .fileExceedsCapacity => "FILE_EXCEEDS_CAPACITY"
  | .noTablesFound => "NO_TABLES_FOUND"
  | .invalidSchema => "INVALID_SCHEMA"
  | .workerBusy => "WORKER_BUSY"
  | .rangeError => "Invalid time value"

/-- `normalizeDate(value)` of the worker, line for line: NULL gives `null`
(`none`); a number above 1e12 is taken as epoch milliseconds and above 1e9 as
epoch seconds — both *without* a validity check, so an out-of-range number
yields the Invalid Date object, not `null`; any other value falls through to
`new Date(value)` followed by an `isNaN` check (numbers are their own time
value there; strings go through the host parser `parse`). -/
def normalizeDate (parse : String → Option Int) : SVal → Option JSDate
  | .vnull => none
  | .vnum n =>
      if n > 10 ^ 12 then some (jsDateOfNum n)
      else if n > 10 ^ 9 then some (jsDateOfNum (n * 1000))
      else
        match jsDateOfNum n with
        | .time t => some (.time t)
        | .invalid => none
  | .vstr s =>
      match parse s with
      | some t =>
          match jsDateOfNum t with
          | .time t' => some (.time t')
          | .invalid => none
      | none => none

/-! ## Worker: the four metric builders -/

/-- Row caps of the worker. -/
def MAX_DB_BYTES : Nat := 100 * 1024 * 1024

/-- Maximum rows scanned by the visits query. -/
def MAX_ROWS_SCAN : Nat := 5000

/-- Maximum groups returned by the two grouping queries. -/
def MAX_GROUP_ROWS : Nat := 50

/-- One visits bucket `\x7b date, value \x7d`. -/
structure VisitBucket where
  date : String
  value : Nat
deriving DecidableEq, Repr

/-- One duration sample `\x7b index, value \x7d`. -/
structure DurSample where
  index : Nat
  value : Int
deriving DecidableEq, Repr

/-- One states group `\x7b category, value \x7d`. -/
structure StateGroup where
  category : String
  value : Nat
deriving DecidableEq, Repr

/-- One operators group `\x7b name, value \x7d`. -/
structure OpGroup where
  name : String
  value : Nat
deriving DecidableEq, Repr

/-- Bump the count of `k` in an insertion-ordered association list
(`buckets[key] = (buckets[key] || 0) + 1` on a plain JS object: existing keys
keep their position, new keys append). -/
def bumpCount (k : String) : List (String × Nat) → List (String × Nat)
  | [] => [(k, 1)]
  | (k', n) :: rest =>
      if k' == k then (k', n + 1) :: rest else (k', n) :: bumpCount k rest

/-- The bucket-filling loop of `buildVisits`: each scanned value is
normalized; `null` results are skipped; a valid date is floored to its hour
and its ISO key counted; an Invalid Date reaches `toISOString`, which raises
`RangeError` and aborts the whole job. -/
def fillBuckets (parse : String → Option Int) :
    List SVal → List (String × Nat) → Except WorkerErr (List (String × Nat))
  | [], acc => .ok acc
  | v :: rest, acc =>
      match normalizeDate parse v with
      | none => fillBuckets parse rest acc
      | some .invalid => .error .rangeError
      | some (.time t) => fillBuckets parse rest (bumpCount (isoUTC (truncHour t)) acc)

/-- `SELECT col FROM t ORDER BY col ASC LIMIT 5000`: the column values sorted
ascending in SQLite value order, first 5000. -/
def scanOrdered (vals : List SVal) : List SVal :=
  (sortBy svalLe vals).take MAX_ROWS_SCAN

/-- `buildVisits(table, col)` over the time column's values: scan (ordered,
capped at 5000 rows), bucket per truncated hour, sort the ISO keys
ascending as strings (JS `Object.keys(..).sort()`), keep the last 24
(`slice(-24)`). -/
def buildVisits (parse : String → Option Int) (vals : List SVal) :
    Except WorkerErr (List VisitBucket) := do
  let buckets ← fillBuckets parse (scanOrdered vals) []
  let sorted := sortBy strLe (buckets.map Prod.fst)
  pure ((sorted.drop (sorted.length - 24)).map
    fun k => ⟨k, ((buckets.lookup k).getD 0)⟩)

/-- `buildDuration(table, col)`: the first 100 strictly numeric values of the
duration column in row order (`WHERE typeof(col) IN ('integer','real')
LIMIT 100`), each paired with its 0-based output index. -/
def buildDuration (vals : List SVal) : List DurSample :=
  (((vals.filterMap fun v => match v with | .vnum n => some n | _ => none).take
      100).enum).map fun p => ⟨p.1, p.2⟩

/-- The distinct values of a column, each with its row count, in first
occurrence order (the multiset a `GROUP BY` computes). -/
def groupCounts (vals : List SVal) : List (SVal × Nat) :=
  vals.dedup.map fun v => (v, vals.count v)

/-- Output order of `GROUP BY c ORDER BY COUNT(*) DESC LIMIT n` in SQLite:
count descending, ties by the group key descending in SQLite value order. -/
def groupDescLe (a b : SVal × Nat) : Bool :=
  decide (b.2 < a.2) || (a.2 == b.2 && svalLe b.1 a.1)

/-- The grouping query shared by `buildStates` and `buildOperators`:
per-value counts ordered by count descending (ties: key descending), capped
at 50 groups. -/
def sqlGroupDesc (vals : List SVal) : List (SVal × Nat) :=
  (sortBy groupDescLe (groupCounts vals)).take MAX_GROUP_ROWS

/-- `buildStates(table, col)`: the grouping query with NULL labelled
`"UNKNOWN"` (`String(k ?? 'UNKNOWN')`). -/
def buildStates (vals : List SVal) : List StateGroup :=
  (sqlGroupDesc vals).map fun p => ⟨svalToLabel "UNKNOWN" p.1, p.2⟩

/-- `buildOperators(table, col)`: the grouping query with NULL labelled
`"SYSTEM"`. -/
def buildOperators (vals : List SVal) : List OpGroup :=
  (sqlGroupDesc vals).map fun p => ⟨svalToLabel "SYSTEM" p.1, p.2⟩

/-! ## Worker: schema discovery and aggregation -/

/-- `listTables()`: names of the non-internal tables, in `sqlite_master`
order. -/
def listTables (d : Database) : List String :=
  (d.tables.map Table.name).filter fun n => !isSqliteInternal n

/-- `listColumns(table)` (`PRAGMA table_info`): the declared column names in
order. -/
def listColumns (t : Table) : List String := t.cols

/-- The `/event|visit|patient|log|telemetry/i` candidate-table test. -/
def tablePat (n : String) : Bool :=
  containsCI n "event" || containsCI n "visit" || containsCI n "patient" ||
    containsCI n "log" || containsCI n "telemetry"

/-- The `/time|date|created|timestamp/i` time-column test. -/
def timePat (c : String) : Bool :=
  containsCI c "time" || containsCI c "date" || containsCI c "created" ||
    containsCI c "timestamp"

/-- The `/duration|min|ms|length/i` duration-column test. -/
def durPat (c : String) : Bool :=
  containsCI c "duration" || containsCI c "min" || containsCI c "ms" ||
    containsCI c "length"

/-- The `/staff|user|operator|agent|doctor|nurse/i` operator-column test. -/
def opPat (c : String) : Bool :=
  containsCI c "staff" || containsCI c "user" || containsCI c "operator" ||
    containsCI c "agent" || containsCI c "doctor" || containsCI c "nurse"

/-- The `/status|state|type|category/i` status-column test. -/
def statPat (c : String) : Bool :=
  containsCI c "status" || containsCI c "state" || containsCI c "type" ||
    containsCI c "category"

/-- The full aggregate result `\x7b visits, duration, states, operators,
volume \x7d`. -/
structure AggregateResult where
  visits : List VisitBucket
  duration : List DurSample
  states : List StateGroup
  operators : List OpGroup
  volume : List Int
deriving DecidableEq, Repr

/-- `colTime ? buildVisits(table, colTime) : []` — the visits series of the
table, where `colTime` is the first column matching the time pattern. -/
def visitsSeries (parse : String → Option Int) (t : Table) :
    Except WorkerErr (List VisitBucket) :=
  match (listColumns t).find? timePat with
  | some c => buildVisits parse (t.colVals c)
  | none => pure []

/-- `colDur ? buildDuration(table, colDur) : []`. -/
def durationSeries (t : Table) : List DurSample :=
  match (listColumns t).find? durPat with
  | some c => buildDuration (t.colVals c)
  | none => []

/-- `colStat ? buildStates(table, colStat) : []`. -/
def statesSeries (t : Table) : List StateGroup :=
  match (listColumns t).find? statPat with
  | some c => buildStates (t.colVals c)
  | none => []

/-- `colOp ? buildOperators(table, colOp) : []`. -/
def operatorsSeries (t : Table) : List OpGroup :=
  match (listColumns t).find? opPat with
  | some c => buildOperators (t.colVals c)
  | none => []

/-- `aggregateTable(table)`: resolve the four column roles by the first
matching column name, build each series (an unresolved role yields an empty
series), leave `volume` intentionally empty. -/
def aggregateTable (parse : String → Option Int) (t : Table) :
    Except WorkerErr AggregateResult := do
  let visits ← visitsSeries parse t
  pure ⟨visits, durationSeries t, statesSeries t, operatorsSeries t, []⟩

/-- The candidate-table stage of `analyzeDatabase` over the listed table
names: empty list fails with `NO_TABLES_FOUND`; otherwise the first name
matching the candidate pattern is selected, or the call fails with
`INVALID_SCHEMA`. -/
def selectMain (names : List String) : Except WorkerErr String :=
  if names.isEmpty then .error .noTablesFound
  else
    match names.find? tablePat with
    | some n => .ok n
    | none => .error .invalidSchema

/-- First table carrying a given name (SQLite table names are unique). -/
def findTable (d : Database) (n : String) : Option Table :=
  d.tables.find? fun t => t.name == n

/-- The mutable worker state visible to a job: whether sql.js initialisation
finished (`SQL`), and the currently open database handle, if any.  Handles
are identified by a freshness counter so that distinct `new SQL.Database`
instances are distinguishable. -/
structure WState where
  sqlReady : Bool
  db : Option Nat
  nextId : Nat
deriving DecidableEq, Repr

/-- `closeDb()`: drop the open handle, if any. -/
def closeDb (s : WState) : WState := { s with db := none }

/-- The bytes handed to the engine: their length and the database SQLite
parses out of them (a deterministic function of the bytes). -/
structure Buffer where
  byteLength : Nat
  content : Database
deriving Repr

/-- `analyzeDatabase(buffer)`, threading the worker state: the three guards
(`WORKER_NOT_READY`, `EMPTY_FILE`, `FILE_EXCEEDS_CAPACITY`) fire before any
handle is touched; past them the previous handle is closed, a fresh one
opened, and the candidate table selected and aggregated.  No exit path after
the open closes the new handle. -/
def analyzeDatabase (parse : String → Option Int) (s : WState)
    (buffer : Option Buffer) : WState × Except WorkerErr AggregateResult :=
  if !s.sqlReady then (s, .error .workerNotReady)
  else
    match buffer with
    | none => (s, .error .emptyFile)
    | some buf =>
      if buf.byteLength == 0 then (s, .error .emptyFile)
      else if MAX_DB_BYTES < buf.byteLength then (s, .error .fileExceedsCapacity)
      else
        let s1 := closeDb s
        let s2 := { s1 with db := some s1.nextId, nextId := s1.nextId + 1 }
        match selectMain (listTables buf.content) with
        | .error e => (s2, .error e)
        | .ok name =>
          match findTable buf.content name with
          | some t => (s2, aggregateTable parse t)
          | none => (s2, .error .invalidSchema)

/-! ## Controller: error mapping -/

/-- `ERROR_MAP` of the app controller, entries in declaration order.  Note
the keys are written with spaces while the engine's reason codes use
underscores. -/
def ERROR_MAP : List (String × String) :=
  [("FILE EXCEEDS CAPACITY", "File too large. Export a smaller date range."),
   ("NO TABLES FOUND", "Not a valid EMR export (no tables detected)."),
   ("INVALID SCHEMA", "Required visit/workflow data not found in this export."),
   ("WORKER BUSY", "System busy. Please wait."),
   ("WORKER CRASH", "Analysis engine crashed. Please reload."),
   ("WORKER NOT READY", "System initializing. Please try again."),
   ("READ FAILED", "Browser could not read the file. Try re-exporting."),
   ("D3 MISSING", "Visualization library failed to load (D3).")]

/-- The generic fallback of `mapErrorToUser`. -/
def FALLBACK_MSG : String := "Processing error. Please try a different export."

/-- `mapErrorToUser(technical)`: the message of the first `ERROR_MAP` entry
whose key occurs in the technical string (case-sensitive `includes`),
else the generic fallback. -/
def mapErrorToUser (technical : String) : String :=
  match ERROR_MAP.find? fun kv => strHas technical kv.1 with
  | some kv => kv.2
  | none => FALLBACK_MSG

/-! ## Controller: payload validation and consumption -/

/-- A JavaScript value as the controller sees worker payloads: `undefined`,
`null`, numbers (modelled as integers), strings, arrays, plain objects
(fields in property-insertion order), and `Date` objects (valid ones, by
their time value). -/
inductive JVal where
  | vundefined
  | vnull
  | vnum (n : Int)
  | vstr (s : String)
  | varr (elems : List JVal)
  | vobj (fields : List (String × JVal))
  | vdate (t : Int)

/-- Truthy `typeof payload === "object"`: arrays and plain objects qualify;
`null` is falsy, and numbers, strings, `undefined` have other typeofs.
(`Date` values also have typeof object, but a worker payload is
structured-cloned data.) -/
def isObjLike : JVal → Bool
  | .varr _ => true
  | .vobj _ => true
  | .vdate _ => true
  | _ => false

/-- Property read `o[name]`: `undefined` unless `o` is a plain object with
the field. -/
def getField (o : JVal) (name : String) : JVal :=
  match o with
  | .vobj fs => (fs.lookup name).getD .vundefined
  | _ => .vundefined

/-- Assignment into an association list: an existing key is updated in place
(keeping its position), a new key appends — JS property-order semantics. -/
def setAssoc (fs : List (String × JVal)) (name : String) (v : JVal) :
    List (String × JVal) :=
  match fs with
  | [] => [(name, v)]
  | (k, w) :: rest =>
      if k == name then (k, v) :: rest else (k, w) :: setAssoc rest name v

/-- Property write `o[name] = v` (only meaningful on plain objects here). -/
def setField (o : JVal) (name : String) (v : JVal) : JVal :=
  match o with
  | .vobj fs => .vobj (setAssoc fs name v)
  | x => x

/-- `Array.isArray`. -/
def isArr : JVal → Bool
  | .varr _ => true
  | _ => false

/-- One `if (!Array.isArray(payload.f)) payload.f = [];` defaulting step. -/
def defaultField (o : JVal) (name : String) : JVal :=
  if isArr (getField o name) then o else setField o name (.varr [])

/-- `validatePayload(payload)`: the returned flag paired with the payload
*after* the in-place defaulting writes the function performs on its
argument. -/
def validatePayload (payload : JVal) : Bool × JVal :=
  if !isObjLike payload then (false, payload)
  else if !isArr (getField payload "visits") then (false, payload)
  else
    (true, defaultField (defaultField (defaultField
      (defaultField payload "duration") "states") "operators") "volume")

/-- `toSafeDate(v)` of the controller: valid `Date` values pass through;
numbers are epoch seconds below 1e10 and epoch milliseconds otherwise (out of
range falls back to `new Date()`, the current instant `now`); everything else
is coerced to a string and given to the host date parser, unparsable values
again falling back to `now`. -/
def toSafeDate (parse : String → Option Int) (now : Int) : JVal → Int
  | .vdate t => t
  | .vnum n =>
      let ms := if n < 10000000000 then n * 1000 else n
      match jsDateOfNum ms with
      | .time t => t
      | .invalid => now
  | .vstr s => ((parse s).getD now)
  | .vundefined => now
  | .vnull => now
  | .varr _ => now
  | .vobj _ => now

/-- JS `Number(x) || 0` as applied to a visit's `value` field (worker
payloads carry numbers there; non-numeric shapes coerce to 0 — for strings
through the host numeric parser `parseNum`). -/
def numberOrZero (parseNum : String → Option Int) : JVal → Int
  | .vnum n => n
  | .vstr s => (parseNum s).getD 0
  | .vdate t => t
  | _ => 0

/-- The visits re-mapping of the `ANALYSIS_COMPLETE` branch:
`payload.visits.map(d => (\x7b date: toSafeDate(d.date), value:
Number(d.value) || 0 \x7d))`. -/
def mapVisits (parse : String → Option Int) (parseNum : String → Option Int)
    (now : Int) : JVal → JVal
  | .varr es => .varr (es.map fun d =>
      .vobj [("date", .vdate (toSafeDate parse now (getField d "date"))),
             ("value", .vnum (numberOrZero parseNum (getField d "value")))])
  | x => x

/-- The `ANALYSIS_COMPLETE` branch of `handleWorkerMessage` after the UI
resets: validate the payload (mutating it in place), and on success publish
`state.data = \x7b ...payload, visits \x7d` — the mutated payload with its
visits re-mapped; on failure publish nothing. -/
def handleAnalysisComplete (parse : String → Option Int)
    (parseNum : String → Option Int) (now : Int) (payload : JVal) :
    Option JVal :=
  let v := validatePayload payload
  if v.1 then
    some (setField v.2 "visits" (mapVisits parse parseNum now (getField v.2 "visits")))
  else none

/-! ## Coordinator/engine step system (for the single-job invariant)

The asynchronous composition of the controller's file-upload path and the
worker's message handler, abstracted to the fields the concurrency discipline
touches: the controller's `isProcessing` flag and lifecycle status, the
in-flight `FileReader`, the `ANALYZE` channel to the worker, the worker's
`busy` flag, and the channel of worker messages back to the controller. -/

/-- Lifecycle status codes of `#status-text`. -/
inductive Status where
  | idle
  | received
  | processing
  | valid
  | invalid
deriving DecidableEq, Repr

/-- A worker→controller message: `READY`, `ANALYSIS_COMPLETE`, or `ERROR`. -/
inductive WMsg where
  | ready
  | complete
  | werror
deriving DecidableEq, Repr

/-- The joint coordinator/engine state. `toWorker` counts queued `ANALYZE`
messages (their buffers are irrelevant to the discipline); `toCoord` is the
ordered queue of pending worker messages. -/
structure Sys where
  isProcessing : Bool
  workerReady : Bool
  pendingRead : Bool
  status : Status
  toWorker : Nat
  busy : Bool
  toCoord : List WMsg
deriving DecidableEq, Repr

/-- Events of the composed system: a file selection (with its size-guard
outcome), the `FileReader` resolving (load / error / `postMessage` throw),
the worker dequeuing an `ANALYZE`, the running job finishing (successfully
or not), the worker's initialisation `READY` post, and the controller
dequeuing a worker message. -/
inductive Ev where
  | selectFile (tooBig : Bool)
  | readOk
  | readErr
  | postFail
  | deliverAnalyze
  | finishJob (ok : Bool)
  | workerInit
  | deliverCoord
deriving DecidableEq, Repr

/-- `handleFileUpload`: an in-flight job makes the handler return before
touching anything; an oversized file is rejected to INVALID; a not-ready
worker surfaces INVALID without starting a job; otherwise the job starts —
`isProcessing` set, status PROCESSING, file read begun. -/
def stepSelect (s : Sys) (tooBig : Bool) : Sys :=
  if s.isProcessing then s
  else if tooBig then { s with status := .invalid }
  else if !s.workerReady then { s with status := .invalid }
  else { s with isProcessing := true, pendingRead := true, status := .processing }

/-- One transition of the composed system. -/
def step (s : Sys) : Ev → Sys
  | .selectFile tooBig => stepSelect s tooBig
  | .readOk =>
      if s.pendingRead then
        { s with pendingRead := false, toWorker := s.toWorker + 1 }
      else s
  | .readErr =>
      if s.pendingRead then
        { s with pendingRead := false, isProcessing := false, status := .invalid }
      else s
  | .postFail =>
      if s.pendingRead then
        { s with pendingRead := false, isProcessing := false, status := .invalid }
      else s
  | .deliverAnalyze =>
      match s.toWorker with
      | 0 => s
      | n + 1 =>
          if s.busy then
            { s with toWorker := n, toCoord := s.toCoord ++ [.werror] }
          else { s with toWorker := n, busy := true }
  | .finishJob ok =>
      if s.busy then
        { s with busy := false,
                 toCoord := s.toCoord ++ [if ok then .complete else .werror] }
      else s
  | .workerInit => { s with toCoord := s.toCoord ++ [.ready] }
  | .deliverCoord =>
      match s.toCoord with
      | [] => s
      | .ready :: rest => { s with workerReady := true, toCoord := rest }
      | .complete :: rest =>
          { s with isProcessing := false, status := .valid, toCoord := rest }
      | .werror :: rest =>
          { s with isProcessing := false, status := .invalid, toCoord := rest }

/-- The boot state: nothing in flight, worker not yet ready. -/
def initSys : Sys :=
  { isProcessing := false, workerReady := false, pendingRead := false,
    status := .idle, toWorker := 0, busy := false, toCoord := [] }

/-- States reachable from boot. -/
inductive Reach : Sys → Prop where
  | init : Reach initSys
  | next {s : Sys} (e : Ev) : Reach s → Reach (step s e)

/-- Number of job-resolving messages (`ANALYSIS_COMPLETE` / `ERROR`) queued
to the controller. -/
def jobMsgs (l : List WMsg) : Nat :=
  (l.filter fun m => m != .ready).length

/-- Number of analysis jobs in flight: a pending file read, a queued
`ANALYZE`, a busy engine, or an unresolved completion message each count. -/
def inflight (s : Sys) : Nat :=
  (if s.pendingRead then 1 else 0) + s.toWorker + (if s.busy then 1 else 0) +
    jobMsgs s.toCoord

/-- The inductive single-job invariant: at most one job is in flight, and
the controller's `isProcessing` flag is set exactly while one is. -/
def SysInv (s : Sys) : Prop :=
  inflight s ≤ 1 ∧ (s.isProcessing = true ↔ inflight s = 1)

/-! ## The worker's ambient environment (for the determinism claim)

The worker scope has ambient access to the wall clock (`Date.now`, `new
Date()`) and the PRNG (`Math.random`); `analyzeDatabase` and everything it
calls never read either — made explicit by threading an environment through a
wrapper that the analysis provably ignores. -/

/-- Ambient host state a worker-scope function could read: the current
instant and the PRNG state. -/
structure Env where
  now : Int
  seed : Nat
deriving DecidableEq, Repr

/-- `analyzeDatabase` as run in the worker's environment. -/
def analyzeDatabaseEnv (_env : Env) (parse : String → Option Int) (s : WState)
    (buffer : Option Buffer) : WState × Except WorkerErr AggregateResult :=
  analyzeDatabase parse s buffer

/-! ## Concrete inputs used to exercise the definitions -/

/-- A host date parser that parses no string (all claim inputs below carry
numeric timestamps). -/
def hostParseNone : String → Option Int := fun _ => none

/-- Scenario A rows: 30 timestamp values spanning the three hours 05:00,
06:00 and 07:00 UTC of 2024-03-01 (10, 12 and 8 rows respectively, at
varying minutes within each hour). -/
def exRows30 : List SVal :=
  ((List.range 10).map fun i => SVal.vnum (1709269200000 + 60000 * i)) ++
    ((List.range 12).map fun i => SVal.vnum (1709272800000 + 120000 * i)) ++
    ((List.range 8).map fun i => SVal.vnum (1709276400000 + 180000 * i))

/-- Scenario D status column: `["ADMIT", "ADMIT", "TRIAGE", null]`. -/
def exStatus : List SVal := [.vstr "ADMIT", .vstr "ADMIT", .vstr "TRIAGE", .vnull]

/-- A minimal database whose only table matches the candidate pattern but
none of the column roles (Scenario C shape). -/
def visitsOnlyDb : Database := ⟨[⟨"visits", ["note"], [[.vstr "x"]]⟩]⟩

/-- A table exceeding every output cap at once: 102 rows over 25 distinct
hours (> 24 buckets), 51 distinct status values (> 50 groups), 102 numeric
duration values (> 100 samples). -/
def bigTable : Table :=
  ⟨"patient_log", ["created", "duration_min", "status", "staff_id"],
    (List.range 102).map fun i =>
      [SVal.vnum (1709269200000 + 3600000 * ((i : Int) % 25)),
       SVal.vnum (10 + (i : Int)),
       SVal.vstr ("S" ++ toString (i % 51)),
       SVal.vstr ("W" ++ toString (i % 3))]⟩

/-- The database holding `bigTable`. -/
def bigDb : Database := ⟨[bigTable]⟩

/-- A structured-clone payload object (a plain object value). -/
def isPlainObj (o : JVal) : Prop := ∃ fs, o = JVal.vobj fs

/-- Shorthand for the value a defaulting step leaves in a field. -/
def dfltVal (o : JVal) (k : String) : JVal :=
  if isArr (getField o k) then getField o k else .varr []

/-! ## Characterisation of `analyzeDatabase` (state and result) -/

/-- The result of one analysis call as a function of the readiness flag and
the input alone. -/
def analyzeResult (parse : String → Option Int) (ready : Bool)
    (buffer : Option Buffer) : Except WorkerErr AggregateResult :=
  if !ready then .error .workerNotReady
  else
    match buffer with
    | none => .error .emptyFile
    | some buf =>
      if buf.byteLength == 0 then .error .emptyFile
      else if MAX_DB_BYTES < buf.byteLength then .error .fileExceedsCapacity
      else
        match selectMain (listTables buf.content) with
        | .error e => .error e
        | .ok name =>
          match findTable buf.content name with
          | some t => aggregateTable parse t
          | none => .error .invalidSchema

theorem analyzeDatabase_result (parse : String → Option Int) (s : WState)
    (buffer : Option Buffer) :
    (analyzeDatabase parse s buffer).2 = analyzeResult parse s.sqlReady buffer := by
  rcases s with ⟨ready, db, nid⟩
  cases ready
  case false => rfl
  case true =>
    cases buffer
    case none => rfl
    case some buf =>
      by_cases h0 : buf.byteLength == 0
      · simp [analyzeDatabase, analyzeResult, h0]
      · by_cases h1 : MAX_DB_BYTES < buf.byteLength
        · simp [analyzeDatabase, analyzeResult, h0, h1]
        · simp only [analyzeDatabase, analyzeResult]
          rcases hsel : selectMain (listTables buf.content) with e | nm
          · simp [h0, h1, hsel]
          · rcases hft : findTable buf.content nm with _ | t
            · simp [h0, h1, hsel, hft]
            · simp [h0, h1, hsel, hft]

theorem analyzeDatabase_state (parse : String → Option Int) (s : WState)
    (buffer : Option Buffer) :
    (analyzeDatabase parse s buffer).1 = s ∨
      (analyzeDatabase parse s buffer).1 =
        { sqlReady := s.sqlReady, db := some s.nextId, nextId := s.nextId + 1 } := by
  rcases s with ⟨ready, db, nid⟩
  cases ready
  case false => exact Or.inl rfl
  case true =>
    cases buffer
    case none => exact Or.inl rfl
    case some buf =>
      by_cases h0 : buf.byteLength == 0
      · left; simp [analyzeDatabase, h0]
      · by_cases h1 : MAX_DB_BYTES < buf.byteLength
        · left; simp [analyzeDatabase, h0, h1]
        · right
          simp only [analyzeDatabase]
          rcases hsel : selectMain (listTables buf.content) with e | nm
          · simp [h0, h1, hsel, closeDb]
          · rcases hft : findTable buf.content nm with _ | t
            · simp [h0, h1, hsel, hft, closeDb]
            · simp [h0, h1, hsel, hft, closeDb]

/-! ## Object-field lemmas (for the payload validator) -/

theorem lookup_cons_self {α β : Type} [BEq α] [LawfulBEq α] (k : α) (v : β)
    (rest : List (α × β)) : List.lookup k ((k, v) :: rest) = some v := by
  simp [List.lookup]

theorem lookup_cons_diff {α β : Type} [BEq α] [LawfulBEq α] {k k' : α}
    (h : k ≠ k') (v : β) (rest : List (α × β)) :
    List.lookup k ((k', v) :: rest) = List.lookup k rest := by
  simp [List.lookup, beq_eq_false_iff_ne.mpr h]

theorem lookup_setAssoc_self (fs : List (String × JVal)) (k : String) (v : JVal) :
    (setAssoc fs k v).lookup k = some v := by
  induction fs with
  | nil => simp [setAssoc]
  | cons p rest ih =>
      rcases p with ⟨k', w⟩
      by_cases h : k' = k
      · subst h; simp [setAssoc]
      · simp only [setAssoc, beq_iff_eq, h, if_false]
        rw [lookup_cons_diff (fun hh => h hh.symm), ih]

theorem lookup_setAssoc_ne (fs : List (String × JVal)) (k k2 : String)
    (v : JVal) (h : k2 ≠ k) :
    (setAssoc fs k v).lookup k2 = fs.lookup k2 := by
  induction fs with
  | nil => simp [setAssoc, List.lookup, beq_eq_false_iff_ne.mpr h]
  | cons p rest ih =>
      rcases p with ⟨k', w⟩
      by_cases hk : k' = k
      · subst hk
        simp only [setAssoc, beq_self_eq_true, if_true]
        rw [lookup_cons_diff h, lookup_cons_diff h]
      · simp only [setAssoc, beq_iff_eq, hk, if_false]
        by_cases h2 : k2 = k'
        · subst h2; simp [List.lookup]
        · rw [lookup_cons_diff h2, lookup_cons_diff h2, ih]

theorem defaultField_isPlain {o : JVal} (ho : isPlainObj o) (k : String) :
    isPlainObj (defaultField o k) := by
  rcases ho with ⟨fs, rfl⟩
  by_cases h : isArr (getField (JVal.vobj fs) k)
  · exact ⟨fs, by unfold defaultField; rw [if_pos h]⟩
  · exact ⟨setAssoc fs k (.varr []), by unfold defaultField; rw [if_neg h]; rfl⟩

theorem getField_defaultField_other (o : JVal) (k k2 : String) (h : k2 ≠ k) :
    getField (defaultField o k) k2 = getField o k2 := by
  cases o with
  | vobj fs =>
      by_cases ha : isArr (getField (JVal.vobj fs) k)
      · unfold defaultField; rw [if_pos ha]
      · unfold defaultField; rw [if_neg ha]
        show (List.lookup k2 (setAssoc fs k (JVal.varr []))).getD JVal.vundefined = _
        rw [lookup_setAssoc_ne fs k k2 _ h]
        rfl
  | vundefined => rfl
  | vnull => rfl
  | vnum n => rfl
  | vstr s => rfl
  | varr es => rfl
  | vdate t => rfl

theorem getField_defaultField_self (fs : List (String × JVal)) (k : String) :
    getField (defaultField (JVal.vobj fs) k) k =
      if isArr (getField (JVal.vobj fs) k) then getField (JVal.vobj fs) k
      else .varr [] := by
  by_cases ha : isArr (getField (JVal.vobj fs) k)
  · unfold defaultField; rw [if_pos ha, if_pos ha]
  · unfold defaultField; rw [if_neg ha, if_neg ha]
    show (List.lookup k (setAssoc fs k (JVal.varr []))).getD JVal.vundefined = _
    rw [lookup_setAssoc_self]
    rfl

theorem validatePayload_true_fields (fs : List (String × JVal))
    (hvis : isArr (getField (JVal.vobj fs) "visits") = true) :
    (validatePayload (JVal.vobj fs)).1 = true
  ∧ getField (validatePayload (JVal.vobj fs)).2 "visits" =
      getField (JVal.vobj fs) "visits"
  ∧ getField (validatePayload (JVal.vobj fs)).2 "duration" =
      dfltVal (JVal.vobj fs) "duration"
  ∧ getField (validatePayload (JVal.vobj fs)).2 "states" =
      dfltVal (JVal.vobj fs) "states"
  ∧ getField (validatePayload (JVal.vobj fs)).2 "operators" =
      dfltVal (JVal.vobj fs) "operators"
  ∧ getField (validatePayload (JVal.vobj fs)).2 "volume" =
      dfltVal (JVal.vobj fs) "volume" := by
  have hval : validatePayload (JVal.vobj fs) =
      (true, defaultField (defaultField (defaultField
        (defaultField (JVal.vobj fs) "duration") "states") "operators")
        "volume") := by
    simp [validatePayload, isObjLike, hvis]
  have hp1 : isPlainObj (defaultField (JVal.vobj fs) "duration") :=
    defaultField_isPlain ⟨fs, rfl⟩ _
  have hp2 : isPlainObj (defaultField (defaultField (JVal.vobj fs) "duration")
      "states") := defaultField_isPlain hp1 _
  have hp3 : isPlainObj (defaultField (defaultField (defaultField
      (JVal.vobj fs) "duration") "states") "operators") :=
    defaultField_isPlain hp2 _
  rcases hp1 with ⟨g1, hg1⟩
  rcases hp2 with ⟨g2, hg2⟩
  rcases hp3 with ⟨g3, hg3⟩
  refine ⟨by rw [hval], ?_, ?_, ?_, ?_, ?_⟩
  · rw [hval]
    rw [getField_defaultField_other _ _ _ (by decide),
        getField_defaultField_other _ _ _ (by decide),
        getField_defaultField_other _ _ _ (by decide),
        getField_defaultField_other _ _ _ (by decide)]
  · rw [hval]
    show getField _ "duration" = _
    rw [getField_defaultField_other _ _ _ (by decide),
        getField_defaultField_other _ _ _ (by decide),
        getField_defaultField_other _ _ _ (by decide),
        getField_defaultField_self, dfltVal]
  · rw [hval]
    show getField _ "states" = _
    rw [getField_defaultField_other _ _ _ (by decide),
        getField_defaultField_other _ _ _ (by decide), hg1,
        getField_defaultField_self, ← hg1, dfltVal,
        getField_defaultField_other _ _ _ (by decide)]
  · rw [hval]
    show getField _ "operators" = _
    rw [getField_defaultField_other _ _ _ (by decide), hg2,
        getField_defaultField_self, ← hg2, dfltVal,
        getField_defaultField_other _ _ _ (by decide),
        getField_defaultField_other _ _ _ (by decide)]
  · rw [hval]
    show getField _ "volume" = _
    rw [hg3, getField_defaultField_self, ← hg3, dfltVal,
        getField_defaultField_other _ _ _ (by decide),
        getField_defaultField_other _ _ _ (by decide),
        getField_defaultField_other _ _ _ (by decide)]

theorem isArr_dfltVal (o : JVal) (k : String) : isArr (dfltVal o k) = true := by
  unfold dfltVal
  by_cases h : isArr (getField o k)
  · rw [if_pos h]; exact h
  · rw [if_neg h]; rfl

/-! ## Claim theorems -/

/-- C7: `validatePayload` returns `ok = false` exactly when the payload is
absent or not an object, or when its `visits` field is not an array; in
every other case it returns `ok = true`, with the `visits` field unchanged
and each of the four optional series pinned afterwards to exactly its
defaulted value — kept when it already was an array, and the *empty* array
otherwise (`dfltVal`), rather than causing failure — and the payload whose
four series are all present but empty is accepted. -/
theorem claim7_validator_contract (p : JVal) :
    ((validatePayload p).1 = false ↔
       isObjLike p = false ∨ isArr (getField p "visits") = false)
  ∧ ((validatePayload p).1 = true →
       getField (validatePayload p).2 "visits" = getField p "visits"
     ∧ getField (validatePayload p).2 "duration" = dfltVal p "duration"
     ∧ getField (validatePayload p).2 "states" = dfltVal p "states"
     ∧ getField (validatePayload p).2 "operators" = dfltVal p "operators"
     ∧ getField (validatePayload p).2 "volume" = dfltVal p "volume")
  ∧ (validatePayload (.vobj [("visits", .varr []), ("duration", .varr []),
       ("states", .varr []), ("operators", .varr []),
       ("volume", .varr [])])).1 = true := by
  refine ⟨?_, ?_, by decide⟩
  · by_cases h1 : isObjLike p
    · by_cases h2 : isArr (getField p "visits")
      · simp [validatePayload, h1, h2]
      · simp [validatePayload, h1, h2]
    · simp [validatePayload, h1]
  · intro h
    cases p with
    | vobj fs =>
        by_cases hvis : isArr (getField (JVal.vobj fs) "visits")
        · obtain ⟨_, h2, h3, h4, h5, h6⟩ := validatePayload_true_fields fs hvis
          exact ⟨h2, h3, h4, h5, h6⟩
        · exfalso; simp [validatePayload, isObjLike, hvis] at h
    | vundefined => exfalso; simp [validatePayload, isObjLike] at h
    | vnull => exfalso; simp [validatePayload, isObjLike] at h
    | vnum n => exfalso; simp [validatePayload, isObjLike] at h
    | vstr s => exfalso; simp [validatePayload, isObjLike] at h
    | varr es => exfalso; simp [validatePayload, isObjLike, getField, isArr] at h
    | vdate t => exfalso; simp [validatePayload, isObjLike, getField, isArr] at h

/-- C7 witness: the minimal valid payload is accepted and its missing
`duration` series afterwards is exactly the defaulted empty array. -/
theorem claim7_validator_contract_witness :
    getField (validatePayload
      (JVal.vobj [("visits", JVal.varr [])])).2 "duration" = JVal.varr [] :=
  (((claim7_validator_contract (JVal.vobj [("visits", JVal.varr [])])).2.1
    rfl).2.1).trans (by rfl)

/-- C10: `validatePayload` is not side-effect-free on its argument — on any
object payload whose `visits` field is an array it reports success and
returns the argument with each of `duration`, `states`, `operators`,
`volume` overwritten by the empty array whenever that field was not already
an array (and kept otherwise), the `visits` field unchanged; the
`ANALYSIS_COMPLETE` handler then publishes exactly this mutated object (with
its visits re-mapped) as `state.data`.  The final conjunct shows the
mutation is real: a payload lacking the optional fields is changed. -/
theorem claim10_validator_mutates_in_place (parse parseNum : String → Option Int)
    (now : Int) (fs : List (String × JVal))
    (hvis : isArr (getField (JVal.vobj fs) "visits") = true) :
    (validatePayload (JVal.vobj fs)).1 = true
  ∧ getField (validatePayload (JVal.vobj fs)).2 "visits" =
      getField (JVal.vobj fs) "visits"
  ∧ getField (validatePayload (JVal.vobj fs)).2 "duration" =
      dfltVal (JVal.vobj fs) "duration"
  ∧ getField (validatePayload (JVal.vobj fs)).2 "states" =
      dfltVal (JVal.vobj fs) "states"
  ∧ getField (validatePayload (JVal.vobj fs)).2 "operators" =
      dfltVal (JVal.vobj fs) "operators"
  ∧ getField (validatePayload (JVal.vobj fs)).2 "volume" =
      dfltVal (JVal.vobj fs) "volume"
  ∧ handleAnalysisComplete parse parseNum now (JVal.vobj fs) =
      some (setField (validatePayload (JVal.vobj fs)).2 "visits"
        (mapVisits parse parseNum now
          (getField (validatePayload (JVal.vobj fs)).2 "visits")))
  ∧ (validatePayload (JVal.vobj [("visits", JVal.varr [])])).2 ≠
      JVal.vobj [("visits", JVal.varr [])] := by
  obtain ⟨h1, h2, h3, h4, h5, h6⟩ := validatePayload_true_fields fs hvis
  refine ⟨h1, h2, h3, h4, h5, h6, ?_, ?_⟩
  · simp [handleAnalysisComplete, h1]
  · intro hEq
    exact JVal.noConfusion
      (congrArg (fun q => getField q "duration") hEq :
        JVal.varr [] = JVal.vundefined)

/-- A successful `List.find?` returns a matching element and, more
precisely, the first one: everything before it in the list fails the
test. -/
theorem findFirstDecomp {α : Type} (p : α → Bool) (l : List α) (a : α)
    (h : l.find? p = some a) :
    p a = true ∧ ∃ pre post, l = pre ++ a :: post ∧ ∀ x ∈ pre, p x = false := by
  induction l with
  | nil => simp [List.find?] at h
  | cons hd tl ih =>
      by_cases hp : p hd
      · rw [List.find?_cons_of_pos _ hp] at h
        obtain rfl : hd = a := Option.some.inj h
        exact ⟨hp, [], tl, rfl, by simp⟩
      · rw [List.find?_cons_of_neg _ hp] at h
        obtain ⟨hpa, pre, post, hl, hpre⟩ := ih h
        refine ⟨hpa, hd :: pre, post, by rw [hl]; rfl, ?_⟩
        intro x hx
        rcases List.mem_cons.mp hx with rfl | hx2
        · exact Bool.not_eq_true _ ▸ hp
        · exact hpre x hx2

/-- C4: candidate-table selection.  On the listed table names: the empty
list fails with the no-tables error, and only it; the no-candidate
(invalid-schema) error occurs exactly when the list is non-empty and no name
matches the case-insensitive `event|visit|patient|log|telemetry` pattern;
a successful selection returns a matching name all of whose predecessors in
engine-reported order fail the pattern (the first match).  Past its guards,
`analyzeDatabase` resolves to exactly this selection on the database's
listed tables. -/
theorem claim4_candidate_table_selection (names : List String) :
    (selectMain names = .error .noTablesFound ↔ names = [])
  ∧ (selectMain names = .error .invalidSchema ↔
       names ≠ [] ∧ ∀ n ∈ names, tablePat n = false)
  ∧ (∀ nm, selectMain names = .ok nm →
       tablePat nm = true ∧
         ∃ pre post, names = pre ++ nm :: post ∧ ∀ m ∈ pre, tablePat m = false)
  ∧ (∀ (parse : String → Option Int) (s : WState) (buf : Buffer),
       s.sqlReady = true → buf.byteLength ≠ 0 →
       buf.byteLength ≤ MAX_DB_BYTES →
       (analyzeDatabase parse s (some buf)).2 =
         match selectMain (listTables buf.content) with
         | .error e => .error e
         | .ok nm =>
           match findTable buf.content nm with
           | some t => aggregateTable parse t
           | none => .error .invalidSchema) := by
  refine ⟨⟨?_, ?_⟩, ⟨?_, ?_⟩, ?_, ?_⟩
  · intro h
    unfold selectMain at h
    by_cases he : names.isEmpty
    · exact List.isEmpty_iff.mp he
    · rw [if_neg he] at h
      rcases hf : names.find? tablePat with _ | nm <;> rw [hf] at h <;>
        exact absurd h (by simp)
  · rintro rfl; rfl
  · intro h
    unfold selectMain at h
    by_cases he : names.isEmpty
    · rw [if_pos he] at h; exact absurd h (by simp)
    · rw [if_neg he] at h
      rcases hf : names.find? tablePat with _ | nm <;> rw [hf] at h
      · refine ⟨fun hnil => he (by rw [hnil]; rfl), fun n hn => ?_⟩
        simpa using List.find?_eq_none.mp hf n hn
      · exact absurd h (by simp)
  · rintro ⟨hne, hall⟩
    unfold selectMain
    rw [if_neg (fun he => hne (List.isEmpty_iff.mp he)),
      List.find?_eq_none.mpr fun n hn => by simp [hall n hn]]
  · intro nm h
    unfold selectMain at h
    by_cases he : names.isEmpty
    · rw [if_pos he] at h; exact absurd h (by simp)
    · rw [if_neg he] at h
      rcases hf : names.find? tablePat with _ | nm2 <;> rw [hf] at h
      · exact absurd h (by simp)
      · obtain rfl : nm = nm2 := by injection h with hh; exact hh.symm
        exact findFirstDecomp tablePat names _ hf
  · intro parse s buf hready h0 hcap
    rw [analyzeDatabase_result, hready]
    show (if (buf.byteLength == 0) = true then Except.error WorkerErr.emptyFile
      else if MAX_DB_BYTES < buf.byteLength then
        Except.error WorkerErr.fileExceedsCapacity
      else
        match selectMain (listTables buf.content) with
        | .error e => .error e
        | .ok nm =>
          match findTable buf.content nm with
          | some t => aggregateTable parse t
          | none => .error .invalidSchema) = _
    rw [if_neg (by simp [h0]), if_neg (Nat.not_lt.mpr hcap)]

/-- C4 witness: `Patient_Visits` matches the candidate pattern (selected
first among `["sys", "Patient_Visits"]`), and a concrete past-guards call
resolves to the selection expression. -/
theorem claim4_selection_witness :
    tablePat "Patient_Visits" = true
  ∧ (analyzeDatabase hostParseNone ⟨true, none, 0⟩
        (some ⟨1000, visitsOnlyDb⟩)).2 =
      (match selectMain (listTables visitsOnlyDb) with
       | .error e => .error e
       | .ok nm =>
         match findTable visitsOnlyDb nm with
         | some t => aggregateTable hostParseNone t
         | none => .error .invalidSchema) := by
  constructor
  · exact ((claim4_candidate_table_selection ["sys", "Patient_Visits"]).2.2.1
      "Patient_Visits" (by decide)).1
  · exact (claim4_candidate_table_selection []).2.2.2 hostParseNone
      ⟨true, none, 0⟩ ⟨1000, visitsOnlyDb⟩ rfl (by decide) (by decide)

/-- C10 witness: on a concrete payload whose `duration` field is `null`, the
validator leaves behind the defaulted (empty-array) value. -/
theorem claim10_validator_mutates_witness :
    getField (validatePayload (JVal.vobj
      [("visits", JVal.varr []), ("duration", JVal.vnull)])).2 "duration" =
    dfltVal (JVal.vobj
      [("visits", JVal.varr []), ("duration", JVal.vnull)]) "duration" :=
  (claim10_validator_mutates_in_place hostParseNone hostParseNone 0
    [("visits", JVal.varr []), ("duration", JVal.vnull)] rfl).2.2.1

/-- C1: evaluation of `mapErrorToUser` at the codes the analysis engine
actually emits.  The `ERROR_MAP` keys are written with spaces while the
engine's reason codes use underscores (and `EMPTY_FILE` has no entry at
all), so the case-sensitive `includes` lookup matches no entry: every one of
the six engine reason codes is answered with the generic fallback message,
never with the user-safe message the error map associates with that reason —
refuting the claim on the code as written. -/
theorem claim1_engine_codes_map_to_fallback :
    mapErrorToUser (WorkerErr.message .fileExceedsCapacity) = FALLBACK_MSG
  ∧ mapErrorToUser (WorkerErr.message .noTablesFound) = FALLBACK_MSG
  ∧ mapErrorToUser (WorkerErr.message .invalidSchema) = FALLBACK_MSG
  ∧ mapErrorToUser (WorkerErr.message .workerBusy) = FALLBACK_MSG
  ∧ mapErrorToUser (WorkerErr.message .emptyFile) = FALLBACK_MSG
  ∧ mapErrorToUser (WorkerErr.message .workerNotReady) = FALLBACK_MSG
  ∧ mapErrorToUser "NO_TABLES_FOUND" ≠
      "Not a valid EMR export (no tables detected)." := by decide

/-- C2 counterexample: a successful `analyzeDatabase` call on a minimal
valid database exits with the handle it opened still open (`db = some 0`,
not closed), refuting "the database handle opened by that call is closed by
the time the call exits". -/
theorem claim2_counterexample_handle_open_at_exit :
    (analyzeDatabase hostParseNone ⟨true, none, 0⟩
        (some ⟨1000, visitsOnlyDb⟩)).2 = .ok ⟨[], [], [], [], []⟩
  ∧ (analyzeDatabase hostParseNone ⟨true, none, 0⟩
        (some ⟨1000, visitsOnlyDb⟩)).1.db = some 0 := by decide

/-- C2 (amended): every `analyzeDatabase` call either fails a pre-open guard
and leaves the worker state untouched, or closes whatever handle a previous
call left open and exits holding exactly its own freshly opened handle — so
at most one handle is ever open and no handle survives into a later call's
execution; but the handle a call opens is still open when the call exits (it
is closed only at the start of the next call). -/
theorem claim2_amended_one_handle_cycle (parse : String → Option Int)
    (s : WState) (buffer : Option Buffer)
    (hfresh : ∀ i, s.db = some i → i < s.nextId) :
    (analyzeDatabase parse s buffer).1 = s
  ∨ ((analyzeDatabase parse s buffer).1.db = some s.nextId
     ∧ (analyzeDatabase parse s buffer).1.nextId = s.nextId + 1
     ∧ ∀ i, s.db = some i → (analyzeDatabase parse s buffer).1.db ≠ some i) := by
  rcases analyzeDatabase_state parse s buffer with h | h
  · exact Or.inl h
  · right
    refine ⟨by rw [h], by rw [h], ?_⟩
    intro i hdb heq
    rw [h] at heq
    have h1 := Option.some.inj heq
    have h2 := hfresh i hdb
    omega

/-- C2 amended witness: from a state where handle 0 is still open, a
concrete successful call exits holding the fresh handle 1 — the stale
handle 0 was closed during the call. -/
theorem claim2_amended_witness :
    (analyzeDatabase hostParseNone ⟨true, some 0, 1⟩
      (some ⟨1000, visitsOnlyDb⟩)).1.db = some 1 := by
  rcases claim2_amended_one_handle_cycle hostParseNone ⟨true, some 0, 1⟩
      (some ⟨1000, visitsOnlyDb⟩)
      (fun i hdb => by injection hdb with he; subst he; decide) with h | h
  · exact absurd (congrArg WState.db h) (by decide)
  · exact h.1

/-- C5: evaluation of the visits pipeline.  Scenario A holds: 30 rows over 3
distinct hours yield exactly 3 buckets with the per-hour counts, ISO keys
ascending.  The numeric parse rules hold (seconds above 1e9, milliseconds
above 1e12) and an unparsable string is skipped without error.  But a
numeric value just past the ECMAScript `Date` range (8.64e15 ms) — which the
claim says is parsed as epoch milliseconds and bucketed — instead produces
an Invalid Date that `toISOString` turns into a thrown `RangeError`,
aborting the whole job: the code lacks the `isNaN` guard on the numeric fast
paths that its generic branch has. -/
theorem claim5_visits_bucketing_eval :
    buildVisits hostParseNone exRows30 =
      .ok [⟨"2024-03-01T05:00:00.000Z", 10⟩, ⟨"2024-03-01T06:00:00.000Z", 12⟩,
           ⟨"2024-03-01T07:00:00.000Z", 8⟩]
  ∧ normalizeDate hostParseNone (.vnum 1709276400) = some (.time 1709276400000)
  ∧ normalizeDate hostParseNone (.vnum 1709276400000) = some (.time 1709276400000)
  ∧ normalizeDate hostParseNone (.vstr "garbage") = none
  ∧ buildVisits hostParseNone [.vnum 1709276400000, .vstr "garbage"] =
      .ok [⟨"2024-03-01T07:00:00.000Z", 1⟩]
  ∧ buildVisits hostParseNone [.vnum 8640000000000001] = .error .rangeError := by
  decide

/-- C9: determinism of the analysis — the result ignores the ambient clock
and PRNG entirely (the environment wrapper is provably irrelevant), and a
second sequential run on the same bytes, started from whatever worker state
the first run left behind, returns an identical result. -/
theorem claim9_sequential_runs_identical (e1 e2 : Env)
    (parse : String → Option Int) (s : WState) (buffer : Option Buffer) :
    analyzeDatabaseEnv e1 parse s buffer = analyzeDatabaseEnv e2 parse s buffer
  ∧ (analyzeDatabase parse s buffer).2 =
      (analyzeDatabase parse (analyzeDatabase parse s buffer).1 buffer).2 := by
  constructor
  · rfl
  · rw [analyzeDatabase_result, analyzeDatabase_result]
    have hready : (analyzeDatabase parse s buffer).1.sqlReady = s.sqlReady := by
      rcases analyzeDatabase_state parse s buffer with h | h <;> rw [h]
    rw [hready]


/-! ## Output-cap lemmas (for the bounded-size claim) -/

theorem exbind_ok {ε α β : Type} (a : α) (f : α → Except ε β) :
    (Except.ok a : Except ε α) >>= f = f a := rfl

theorem exbind_error {ε α β : Type} (e : ε) (f : α → Except ε β) :
    (Except.error e : Except ε α) >>= f = Except.error e := rfl

theorem buildVisits_ok_length (parse : String → Option Int) (vals : List SVal)
    (v : List VisitBucket) (h : buildVisits parse vals = .ok v) :
    v.length ≤ 24 := by
  unfold buildVisits at h
  rcases hb : fillBuckets parse (scanOrdered vals) [] with e | buckets
  · rw [hb, exbind_error] at h; exact absurd h (by simp)
  · rw [hb, exbind_ok] at h
    obtain rfl : _ = v := Except.ok.inj h
    rw [List.length_map, List.length_drop]
    omega

theorem buildDuration_length (vals : List SVal) :
    (buildDuration vals).length ≤ 100 := by
  unfold buildDuration
  rw [List.length_map, List.enum_length]
  exact List.length_take_le _ _

theorem buildStates_length (vals : List SVal) :
    (buildStates vals).length ≤ 50 := by
  unfold buildStates sqlGroupDesc
  rw [List.length_map]
  exact List.length_take_le _ _

theorem buildOperators_length (vals : List SVal) :
    (buildOperators vals).length ≤ 50 := by
  unfold buildOperators sqlGroupDesc
  rw [List.length_map]
  exact List.length_take_le _ _

theorem visitsSeries_ok_length (parse : String → Option Int) (t : Table)
    (v : List VisitBucket) (h : visitsSeries parse t = .ok v) :
    v.length ≤ 24 := by
  unfold visitsSeries at h
  rcases hc : (listColumns t).find? timePat with _ | c <;> rw [hc] at h
  · obtain rfl : _ = v := Except.ok.inj h
    simp
  · exact buildVisits_ok_length parse _ v h

theorem durationSeries_length (t : Table) : (durationSeries t).length ≤ 100 := by
  unfold durationSeries
  rcases (listColumns t).find? durPat with _ | c
  · simp
  · exact buildDuration_length _

theorem statesSeries_length (t : Table) : (statesSeries t).length ≤ 50 := by
  unfold statesSeries
  rcases (listColumns t).find? statPat with _ | c
  · simp
  · exact buildStates_length _

theorem operatorsSeries_length (t : Table) : (operatorsSeries t).length ≤ 50 := by
  unfold operatorsSeries
  rcases (listColumns t).find? opPat with _ | c
  · simp
  · exact buildOperators_length _

theorem aggregateTable_ok_bounds (parse : String → Option Int) (t : Table)
    (r : AggregateResult) (h : aggregateTable parse t = .ok r) :
    r.visits.length ≤ 24 ∧ r.states.length ≤ 50 ∧ r.operators.length ≤ 50 ∧
      r.duration.length ≤ 100 := by
  unfold aggregateTable at h
  rcases hv : visitsSeries parse t with e | v
  · rw [hv, exbind_error] at h; exact absurd h (by simp)
  · rw [hv, exbind_ok] at h
    obtain rfl : _ = r := Except.ok.inj h
    exact ⟨visitsSeries_ok_length parse t v hv, statesSeries_length t,
      operatorsSeries_length t, durationSeries_length t⟩

theorem analyzeResult_ok (parse : String → Option Int) (ready : Bool)
    (buffer : Option Buffer) (r : AggregateResult)
    (h : analyzeResult parse ready buffer = .ok r) :
    ∃ t, aggregateTable parse t = .ok r := by
  unfold analyzeResult at h
  repeat' split at h
  all_goals first
    | exact absurd h (by simp)
    | exact ⟨_, h⟩

set_option maxHeartbeats 2000000 in
set_option maxRecDepth 10000 in
/-- C3: bounded output.  Every successful analysis returns at most 24 visit
buckets, 50 states groups, 50 operators groups and 100 duration samples; and
an input exceeding all the caps at once (102 rows over 25 distinct hours, 51
distinct status values, 102 numeric durations) still succeeds, with the
excess truncated: the series come back with lengths 24, 50, 3 and 100. -/
theorem claim3_bounded_output :
    (∀ (parse : String → Option Int) (s : WState) (buffer : Option Buffer)
       (r : AggregateResult),
       (analyzeDatabase parse s buffer).2 = .ok r →
       r.visits.length ≤ 24 ∧ r.states.length ≤ 50 ∧
         r.operators.length ≤ 50 ∧ r.duration.length ≤ 100)
  ∧ ((analyzeDatabase hostParseNone ⟨true, none, 0⟩
        (some ⟨5000, bigDb⟩)).2.toOption.map
      (fun r => (r.visits.length, r.states.length, r.operators.length,
        r.duration.length)) = some (24, 50, 3, 100)) := by
  constructor
  · intro parse s buffer r h
    rw [analyzeDatabase_result] at h
    obtain ⟨t, ht⟩ := analyzeResult_ok parse s.sqlReady buffer r h
    exact aggregateTable_ok_bounds parse t r ht
  · decide

/-- C3 witness: the cap bounds instantiated at a concrete successful
analysis (of the minimal candidate-table database, whose result is all-empty
series). -/
theorem claim3_bounded_output_witness :
    ((⟨[], [], [], [], []⟩ : AggregateResult).visits.length ≤ 24)
  ∧ ((⟨[], [], [], [], []⟩ : AggregateResult).states.length ≤ 50)
  ∧ ((⟨[], [], [], [], []⟩ : AggregateResult).operators.length ≤ 50)
  ∧ ((⟨[], [], [], [], []⟩ : AggregateResult).duration.length ≤ 100) :=
  claim3_bounded_output.1 hostParseNone ⟨true, none, 0⟩
    (some ⟨1000, visitsOnlyDb⟩) ⟨[], [], [], [], []⟩ (by decide)

/-! ## Sorting lemmas (for the grouping queries) -/

theorem sortBy_cons {α : Type} (le : α → α → Bool) (x : α) (l : List α) :
    sortBy le (x :: l) = insertBy le x (sortBy le l) := rfl

theorem mem_insertBy {α : Type} (le : α → α → Bool) (x a : α) (l : List α) :
    a ∈ insertBy le x l ↔ a = x ∨ a ∈ l := by
  induction l with
  | nil => simp [insertBy]
  | cons y ys ih =>
      by_cases h : le x y
      · simp only [insertBy, if_pos h]
        simp
      · simp only [insertBy, if_neg h]
        simp only [List.mem_cons, ih]
        tauto

theorem mem_sortBy {α : Type} (le : α → α → Bool) (a : α) (l : List α) :
    a ∈ sortBy le l ↔ a ∈ l := by
  induction l with
  | nil => simp [sortBy]
  | cons y ys ih => rw [sortBy_cons, mem_insertBy, ih, List.mem_cons]

theorem length_insertBy {α : Type} (le : α → α → Bool) (x : α) (l : List α) :
    (insertBy le x l).length = l.length + 1 := by
  induction l with
  | nil => rfl
  | cons y ys ih =>
      by_cases h : le x y
      · simp only [insertBy, if_pos h]; rfl
      · simp only [insertBy, if_neg h, List.length_cons, ih]

theorem length_sortBy {α : Type} (le : α → α → Bool) (l : List α) :
    (sortBy le l).length = l.length := by
  induction l with
  | nil => rfl
  | cons y ys ih => rw [sortBy_cons, length_insertBy, ih, List.length_cons]

theorem pairwise_insertBy {α : Type} {le : α → α → Bool}
    (htot : ∀ a b, le a b = true ∨ le b a = true)
    (htrans : ∀ a b c, le a b = true → le b c = true → le a c = true)
    {l : List α} (hl : l.Pairwise fun a b => le a b = true) (x : α) :
    (insertBy le x l).Pairwise fun a b => le a b = true := by
  induction l with
  | nil => simp [insertBy]
  | cons y ys ih =>
      rcases List.pairwise_cons.mp hl with ⟨hy, hys⟩
      by_cases h : le x y
      · simp only [insertBy, if_pos h]
        refine List.Pairwise.cons ?_ hl
        intro z hz
        rcases List.mem_cons.mp hz with rfl | hz2
        · exact h
        · exact htrans x y z h (hy z hz2)
      · simp only [insertBy, if_neg h]
        refine List.Pairwise.cons ?_ (ih hys)
        intro z hz
        rcases (mem_insertBy le x z ys).mp hz with rfl | hz2
        · rcases htot z y with h2 | h2
          · exact absurd h2 (by simpa using h)
          · exact h2
        · exact hy z hz2

theorem pairwise_sortBy {α : Type} {le : α → α → Bool}
    (htot : ∀ a b, le a b = true ∨ le b a = true)
    (htrans : ∀ a b c, le a b = true → le b c = true → le a c = true)
    (l : List α) :
    (sortBy le l).Pairwise fun a b => le a b = true := by
  induction l with
  | nil => simp [sortBy]
  | cons y ys ih => rw [sortBy_cons]; exact pairwise_insertBy htot htrans ih y

/-! ## The SQLite value order is total and transitive -/

theorem listLexLt_trichotomy (a b : List Char) :
    listLexLt a b = true ∨ a = b ∨ listLexLt b a = true := by
  induction a generalizing b with
  | nil =>
      cases b with
      | nil => exact Or.inr (Or.inl rfl)
      | cons y ys => exact Or.inl rfl
  | cons x xs ih =>
      cases b with
      | nil => exact Or.inr (Or.inr rfl)
      | cons y ys =>
          rcases Nat.lt_trichotomy x.toNat y.toNat with h | h | h
          · left; simp [listLexLt, h]
          · obtain rfl : x = y := Char.ext (UInt32.ext h)
            rcases ih ys with h2 | h2 | h2
            · left; simp [listLexLt, h2]
            · exact Or.inr (Or.inl (by rw [h2]))
            · right; right; simp [listLexLt, h2]
          · right; right; simp [listLexLt, h]

theorem listLexLt_trans (a b c : List Char) (h1 : listLexLt a b = true)
    (h2 : listLexLt b c = true) : listLexLt a c = true := by
  induction a generalizing b c with
  | nil =>
      cases c with
      | nil =>
          cases b with
          | nil => exact h2
          | cons y ys => simp [listLexLt] at h2
      | cons z zs => rfl
  | cons x xs ih =>
      cases b with
      | nil => simp [listLexLt] at h1
      | cons y ys =>
          cases c with
          | nil => simp [listLexLt] at h2
          | cons z zs =>
              simp only [listLexLt, Bool.or_eq_true, Bool.and_eq_true,
                decide_eq_true_eq, beq_iff_eq] at h1 h2 ⊢
              rcases h1 with h1 | ⟨h1e, h1r⟩ <;> rcases h2 with h2 | ⟨h2e, h2r⟩
              · left; omega
              · left; omega
              · left; omega
              · right; exact ⟨by omega, ih ys zs h1r h2r⟩

theorem strDataEq (a b : String) (h : a.data = b.data) : a = b := by
  cases a; cases b; simp_all

theorem svalLe_total (a b : SVal) : svalLe a b = true ∨ svalLe b a = true := by
  rcases a with _ | m | s <;> rcases b with _ | n | t
  · left; rfl
  · left; rfl
  · left; rfl
  · right; rfl
  · rcases Int.lt_trichotomy m n with h | h | h
    · left; simp [svalLe, svalLt, h]
    · subst h; left; simp [svalLe]
    · right; simp [svalLe, svalLt, h]
  · left; rfl
  · right; rfl
  · right; rfl
  · rcases listLexLt_trichotomy s.data t.data with h | h | h
    · left; simp [svalLe, svalLt, strLt, h]
    · obtain rfl : s = t := strDataEq s t h
      left; simp [svalLe]
    · right; simp [svalLe, svalLt, strLt, h]

theorem svalLt_trans (a b c : SVal) (h1 : svalLt a b = true)
    (h2 : svalLt b c = true) : svalLt a c = true := by
  rcases a with _ | m | s <;> rcases b with _ | n | t <;> rcases c with _ | p | u <;>
    simp only [svalLt, svalRank, strLt, decide_eq_true_eq] at h1 h2 ⊢ <;>
    first
      | omega
      | exact listLexLt_trans _ _ _ h1 h2

theorem svalLe_trans (a b c : SVal) (h1 : svalLe a b = true)
    (h2 : svalLe b c = true) : svalLe a c = true := by
  unfold svalLe at h1 h2 ⊢
  simp only [Bool.or_eq_true, beq_iff_eq] at h1 h2 ⊢
  rcases h1 with h1 | rfl
  · rcases h2 with h2 | rfl
    · exact Or.inl (svalLt_trans _ _ _ h1 h2)
    · exact Or.inl h1
  · exact h2

theorem groupDescLe_total (a b : SVal × Nat) :
    groupDescLe a b = true ∨ groupDescLe b a = true := by
  unfold groupDescLe
  rcases Nat.lt_trichotomy a.2 b.2 with h | h | h
  · right; simp [h]
  · rcases svalLe_total a.1 b.1 with h2 | h2
    · right; simp [h, h2]
    · left; simp [h, h2]
  · left; simp [h]

theorem groupDescLe_trans (a b c : SVal × Nat) (h1 : groupDescLe a b = true)
    (h2 : groupDescLe b c = true) : groupDescLe a c = true := by
  unfold groupDescLe at h1 h2 ⊢
  simp only [Bool.or_eq_true, Bool.and_eq_true, decide_eq_true_eq,
    beq_iff_eq] at h1 h2 ⊢
  rcases h1 with h1 | ⟨h1e, h1r⟩ <;> rcases h2 with h2 | ⟨h2e, h2r⟩
  · left; omega
  · left; omega
  · left; omega
  · right; exact ⟨by omega, svalLe_trans _ _ _ h2r h1r⟩

theorem groupDescLe_counts {a b : SVal × Nat} (h : groupDescLe a b = true) :
    b.2 ≤ a.2 := by
  unfold groupDescLe at h
  simp only [Bool.or_eq_true, Bool.and_eq_true, decide_eq_true_eq,
    beq_iff_eq] at h
  rcases h with h | ⟨he, _⟩ <;> omega

/-! ## The grouping query: length, contents, order -/

theorem sqlGroupDesc_length (vals : List SVal) :
    (sqlGroupDesc vals).length = min 50 vals.dedup.length := by
  unfold sqlGroupDesc groupCounts
  rw [List.length_take, length_sortBy, List.length_map]
  rfl

theorem sqlGroupDesc_mem (vals : List SVal) (p : SVal × Nat)
    (h : p ∈ sqlGroupDesc vals) : ∃ v, v ∈ vals ∧ p = (v, vals.count v) := by
  unfold sqlGroupDesc at h
  have h2 := (mem_sortBy groupDescLe p (groupCounts vals)).mp
    (List.mem_of_mem_take h)
  unfold groupCounts at h2
  obtain ⟨v, hv, hp⟩ := List.mem_map.mp h2
  exact ⟨v, List.mem_dedup.mp hv, hp.symm⟩

theorem sqlGroupDesc_complete (vals : List SVal)
    (hlen : vals.dedup.length ≤ 50) (v : SVal) (hv : v ∈ vals) :
    (v, vals.count v) ∈ sqlGroupDesc vals := by
  unfold sqlGroupDesc
  have hmem : (v, vals.count v) ∈ groupCounts vals := by
    unfold groupCounts
    exact List.mem_map.mpr ⟨v, List.mem_dedup.mpr hv, rfl⟩
  have hmem2 := (mem_sortBy groupDescLe _ (groupCounts vals)).mpr hmem
  rw [List.take_of_length_le]
  · exact hmem2
  · rw [length_sortBy]
    unfold groupCounts
    rw [List.length_map]
    exact hlen

theorem sqlGroupDesc_sorted (vals : List SVal) :
    (sqlGroupDesc vals).Pairwise fun a b => groupDescLe a b = true := by
  unfold sqlGroupDesc
  exact (pairwise_sortBy groupDescLe_total groupDescLe_trans
    (groupCounts vals)).sublist (List.take_sublist _ _)

/-- C6: the two grouping series.  Over any status column: one entry per
distinct stored value with that value's row count (each entry comes from a
value in the column, and when at most 50 distinct values exist every one of
them appears), ordered descending by count and capped at 50 groups, with
NULL rendered as the literal label "UNKNOWN"; `buildOperators` behaves
identically with NULL rendered as "SYSTEM".  On the example column
`["ADMIT", "ADMIT", "TRIAGE", null]` the result is exactly
`[(ADMIT, 2), (TRIAGE, 1), (UNKNOWN, 1)]` — the tie between TRIAGE and the
NULL group resolves this way because SQLite's sorter breaks equal counts by
the group key descending, and TRIAGE (text) sorts above NULL. -/
theorem claim6_grouping_contract (vals : List SVal) :
    ((buildStates vals).length = min 50 vals.dedup.length)
  ∧ (∀ g ∈ buildStates vals, ∃ v, v ∈ vals ∧
       g = ⟨svalToLabel "UNKNOWN" v, vals.count v⟩)
  ∧ (vals.dedup.length ≤ 50 → ∀ v ∈ vals,
       (⟨svalToLabel "UNKNOWN" v, vals.count v⟩ : StateGroup) ∈ buildStates vals)
  ∧ (((buildStates vals).map StateGroup.value).Pairwise fun a b => b ≤ a)
  ∧ ((buildOperators vals).length = min 50 vals.dedup.length)
  ∧ (∀ g ∈ buildOperators vals, ∃ v, v ∈ vals ∧
       g = ⟨svalToLabel "SYSTEM" v, vals.count v⟩)
  ∧ (vals.dedup.length ≤ 50 → ∀ v ∈ vals,
       (⟨svalToLabel "SYSTEM" v, vals.count v⟩ : OpGroup) ∈ buildOperators vals)
  ∧ (((buildOperators vals).map OpGroup.value).Pairwise fun a b => b ≤ a)
  ∧ buildStates exStatus = [⟨"ADMIT", 2⟩, ⟨"TRIAGE", 1⟩, ⟨"UNKNOWN", 1⟩] := by
  refine ⟨?_, ?_, ?_, ?_, ?_, ?_, ?_, ?_, by decide⟩
  · unfold buildStates
    rw [List.length_map]
    exact sqlGroupDesc_length vals
  · intro g hg
    unfold buildStates at hg
    obtain ⟨p, hp, hgp⟩ := List.mem_map.mp hg
    obtain ⟨v, hv, rfl⟩ := sqlGroupDesc_mem vals p hp
    exact ⟨v, hv, hgp.symm⟩
  · intro hlen v hv
    unfold buildStates
    exact List.mem_map.mpr ⟨(v, vals.count v),
      sqlGroupDesc_complete vals hlen v hv, rfl⟩
  · unfold buildStates
    rw [List.map_map, List.pairwise_map]
    exact (sqlGroupDesc_sorted vals).imp fun hab => groupDescLe_counts hab
  · unfold buildOperators
    rw [List.length_map]
    exact sqlGroupDesc_length vals
  · intro g hg
    unfold buildOperators at hg
    obtain ⟨p, hp, hgp⟩ := List.mem_map.mp hg
    obtain ⟨v, hv, rfl⟩ := sqlGroupDesc_mem vals p hp
    exact ⟨v, hv, hgp.symm⟩
  · intro hlen v hv
    unfold buildOperators
    exact List.mem_map.mpr ⟨(v, vals.count v),
      sqlGroupDesc_complete vals hlen v hv, rfl⟩
  · unfold buildOperators
    rw [List.map_map, List.pairwise_map]
    exact (sqlGroupDesc_sorted vals).imp fun hab => groupDescLe_counts hab

/-- C6 witness: the contract instantiated on the example status column —
its length equation, and the ADMIT group (count 2) is a member of the
result. -/
theorem claim6_grouping_witness :
    ((buildStates exStatus).length = min 50 exStatus.dedup.length)
  ∧ (⟨svalToLabel "UNKNOWN" (SVal.vstr "ADMIT"),
       exStatus.count (SVal.vstr "ADMIT")⟩ : StateGroup) ∈ buildStates exStatus := by
  refine ⟨(claim6_grouping_contract exStatus).1, ?_⟩
  exact (claim6_grouping_contract exStatus).2.2.1 (by decide) (SVal.vstr "ADMIT")
    (by decide)

/-! ## The single-job invariant -/

theorem jobMsgs_append (l : List WMsg) (m : WMsg) :
    jobMsgs (l ++ [m]) = jobMsgs l + (if m = .ready then 0 else 1) := by
  unfold jobMsgs
  rw [List.filter_append, List.length_append]
  cases m <;> rfl

theorem jobMsgs_cons (m : WMsg) (l : List WMsg) :
    jobMsgs (m :: l) = (if m = .ready then 0 else 1) + jobMsgs l := by
  cases m
  · unfold jobMsgs
    rw [List.filter_cons, if_neg (by decide), if_pos rfl]
    omega
  · unfold jobMsgs
    rw [List.filter_cons, if_pos (by decide), if_neg (by decide),
      List.length_cons]
    omega
  · unfold jobMsgs
    rw [List.filter_cons, if_pos (by decide), if_neg (by decide),
      List.length_cons]
    omega

theorem stepInv (s : Sys) (e : Ev) (h : SysInv s) : SysInv (step s e) := by
  obtain ⟨ip, wr, pr, st, tw, bz, tc⟩ := s
  cases e with
  | selectFile tb =>
      cases ip <;> cases tb <;> cases wr <;>
        simp_all [step, stepSelect, SysInv, inflight] <;> omega
  | readOk =>
      cases pr <;> simp_all [step, SysInv, inflight] <;> omega
  | readErr =>
      cases pr <;> cases ip <;> simp_all [step, SysInv, inflight] <;> omega
  | postFail =>
      cases pr <;> cases ip <;> simp_all [step, SysInv, inflight] <;> omega
  | deliverAnalyze =>
      rcases tw with _ | n <;> cases bz <;>
        simp_all [step, SysInv, inflight, jobMsgs_append] <;> omega
  | finishJob ok =>
      cases bz <;> cases ok <;>
        simp_all [step, SysInv, inflight, jobMsgs_append] <;> omega
  | workerInit =>
      simp_all [step, SysInv, inflight, jobMsgs_append]
  | deliverCoord =>
      rcases tc with _ | ⟨m, rest⟩
      · simp_all [step, SysInv, inflight]
      · cases m <;> cases ip <;>
          simp_all [step, SysInv, inflight, jobMsgs_cons] <;> omega

theorem reachInv (s : Sys) (h : Reach s) : SysInv s := by
  induction h with
  | init => exact ⟨by decide, by decide⟩
  | next e _ ih => exact stepInv _ e ih

/-- C8: single-job discipline.  In every reachable state of the composed
coordinator/engine system at most one analysis job is in flight (counting a
pending file read, a queued `ANALYZE`, a busy engine and an unresolved
completion message); a file selected while `isProcessing` causes no state
change at all (in particular no second `ANALYZE` is sent); and an `ANALYZE`
delivered to a busy engine is answered with the busy error only — the
engine's flag and the rest of the state are untouched and no analysis
starts. -/
theorem claim8_single_job_invariant :
    (∀ s, Reach s → inflight s ≤ 1)
  ∧ (∀ s tb, s.isProcessing = true → step s (.selectFile tb) = s)
  ∧ (∀ s, s.busy = true →
       step s .deliverAnalyze =
         (match s.toWorker with
          | 0 => s
          | n + 1 =>
            { s with toWorker := n, toCoord := s.toCoord ++ [.werror] })) := by
  refine ⟨fun s hs => (reachInv s hs).1, ?_, ?_⟩
  · intro s tb hp
    show stepSelect s tb = s
    unfold stepSelect
    rw [if_pos hp]
  · intro s hb
    obtain ⟨ip, wr, pr, st, tw, bz, tc⟩ := s
    subst hb
    rcases tw with _ | n
    · rfl
    · rfl

/-- C8 witness: the boot state has no job in flight; a second selection in a
concrete processing state is a no-op; a concrete busy engine answers a
delivered `ANALYZE` with only the busy error. -/
theorem claim8_single_job_witness :
    inflight initSys ≤ 1
  ∧ step ⟨true, true, true, .processing, 0, false, []⟩ (.selectFile false) =
      ⟨true, true, true, .processing, 0, false, []⟩
  ∧ step ⟨true, true, false, .processing, 1, true, []⟩ .deliverAnalyze =
      ⟨true, true, false, .processing, 0, true, [.werror]⟩ :=
  ⟨claim8_single_job_invariant.1 initSys Reach.init,
   claim8_single_job_invariant.2.1 ⟨true, true, true, .processing, 0, false, []⟩
     false rfl,
   claim8_single_job_invariant.2.2
     ⟨true, true, false, .processing, 1, true, []⟩ rfl⟩

end Muthur
